import Mathlib

/-!
Verification of the GoldenRatioModularFlavor repository.

Shallow embedding of the Python sources (`model.py`, `verify_results.py`,
`diagnostic.py`, `fix_eigenvalue_docs.py`, `update_and_compile_paper.py`).
Real-valued constants of the code are embedded as exact real numbers;
exact arithmetic in the field Q(sqrt 3, sqrt 5) is carried out on a
computable representation `Q35` and transported to `Real` through `Q35.toReal`.
-/

namespace GoldenFlavor

open scoped Matrix

/-! ### Constants from `model.py` (lines 13-16) -/

noncomputable def PHI : ℝ := (1 + Real.sqrt 5) / 2

noncomputable def PHI_INV : ℝ := 1 / PHI

noncomputable def PHI_INV2 : ℝ := 1 / PHI ^ 2

lemma s5_sq : Real.sqrt 5 ^ 2 = 5 := Real.sq_sqrt (by norm_num)

lemma s3_sq : Real.sqrt 3 ^ 2 = 3 := Real.sq_sqrt (by norm_num)

lemma s15_sq : Real.sqrt 15 ^ 2 = 15 := Real.sq_sqrt (by norm_num)

lemma s5_pos : 0 < Real.sqrt 5 := Real.sqrt_pos.mpr (by norm_num)

lemma s3_pos : 0 < Real.sqrt 3 := Real.sqrt_pos.mpr (by norm_num)

lemma s3_mul_s5 : Real.sqrt 3 * Real.sqrt 5 = Real.sqrt 15 := by
  rw [← Real.sqrt_mul (by norm_num : (0:ℝ) ≤ 3)]
  norm_num

lemma s3_mul_s15 : Real.sqrt 3 * Real.sqrt 15 = 3 * Real.sqrt 5 := by
  rw [← Real.sqrt_mul (by norm_num : (0:ℝ) ≤ 3)]
  rw [show (3 * 15 : ℝ) = 3 ^ 2 * 5 by norm_num]
  rw [Real.sqrt_mul (by positivity), Real.sqrt_sq (by norm_num)]

lemma s5_mul_s15 : Real.sqrt 5 * Real.sqrt 15 = 5 * Real.sqrt 3 := by
  rw [← Real.sqrt_mul (by norm_num : (0:ℝ) ≤ 5)]
  rw [show (5 * 15 : ℝ) = 5 ^ 2 * 3 by norm_num]
  rw [Real.sqrt_mul (by positivity), Real.sqrt_sq (by norm_num)]

lemma PHI_pos : 0 < PHI := by
  unfold PHI
  have := s5_pos
  linarith

lemma one_add_s5_ne : (1 : ℝ) + Real.sqrt 5 ≠ 0 := by
  have := s5_pos; positivity

lemma PHI_INV_eq : PHI_INV = (Real.sqrt 5 - 1) / 2 := by
  unfold PHI_INV PHI
  have h := s5_sq
  have hne := one_add_s5_ne
  field_simp
  nlinarith [h]

lemma PHI_INV2_eq : PHI_INV2 = (3 - Real.sqrt 5) / 2 := by
  unfold PHI_INV2 PHI
  have h := s5_sq
  have hne := one_add_s5_ne
  field_simp
  nlinarith [h]

lemma PHI_INV_pos : 0 < PHI_INV := by
  unfold PHI_INV; exact one_div_pos.mpr PHI_pos

lemma PHI_INV2_pos : 0 < PHI_INV2 := by
  have := PHI_pos
  unfold PHI_INV2; positivity

/-! ### Rational bounds on the square roots, for interval arithmetic -/

lemma s5_gt : (2.2360679 : ℝ) < Real.sqrt 5 := by
  rw [show (2.2360679 : ℝ) = |2.2360679| by rw [abs_of_pos]; norm_num]
  rw [← Real.sqrt_sq_eq_abs]
  exact Real.sqrt_lt_sqrt (by positivity) (by norm_num)

lemma s5_lt : Real.sqrt 5 < 2.2360680 := by
  rw [Real.sqrt_lt' (by norm_num)]
  norm_num

lemma s3_gt : (1.7320508 : ℝ) < Real.sqrt 3 := by
  rw [show (1.7320508 : ℝ) = |1.7320508| by rw [abs_of_pos]; norm_num]
  rw [← Real.sqrt_sq_eq_abs]
  exact Real.sqrt_lt_sqrt (by positivity) (by norm_num)

lemma s3_lt : Real.sqrt 3 < 1.7320509 := by
  rw [Real.sqrt_lt' (by norm_num)]
  norm_num

lemma s15_gt : (3.8729833 : ℝ) < Real.sqrt 15 := by
  rw [show (3.8729833 : ℝ) = |3.8729833| by rw [abs_of_pos]; norm_num]
  rw [← Real.sqrt_sq_eq_abs]
  exact Real.sqrt_lt_sqrt (by positivity) (by norm_num)

lemma s15_lt : Real.sqrt 15 < 3.8729834 := by
  rw [Real.sqrt_lt' (by norm_num)]
  norm_num

/-! ### `A5ModularForms.get_Y_ratios` (`model.py` line 63) -/

noncomputable def Y_ratios : Fin 5 → ℝ := ![1, PHI_INV, PHI_INV2, -PHI_INV2, -PHI_INV]

/-- The check made by `A5ModularForms.verify_stabilizer_condition`
(`model.py` line 97): `np.abs(Y[3] + Y[4] + 1.0) < 1e-10`. -/
noncomputable def verify_stabilizer_condition : Prop :=
  |Y_ratios 3 + Y_ratios 4 + 1| < 1e-10

lemma Y_sum_45 : Y_ratios 3 + Y_ratios 4 = -1 := by
  show -PHI_INV2 + -PHI_INV = -1
  rw [PHI_INV_eq, PHI_INV2_eq]
  ring

/-- C5: the Y-ratio vector satisfies Y₄ + Y₅ = -1 to within 1e-10 (indices 3
and 4 of the array), hence `verify_stabilizer_condition` returns `True`. -/
theorem C5_stabilizer_condition :
    |Y_ratios 3 + Y_ratios 4 - (-1)| < 1e-10 ∧ verify_stabilizer_condition := by
  have h := Y_sum_45
  constructor
  · rw [h]; norm_num
  · unfold verify_stabilizer_condition
    rw [show Y_ratios 3 + Y_ratios 4 + 1 = 0 by rw [h]; ring]
    norm_num

/-! ### `GoldenYukawaMatrix.construct_M0` (`model.py` lines 144-148) -/

noncomputable def M0 : Matrix (Fin 3) (Fin 3) ℝ :=
  !![-2 / Real.sqrt 3,           -1 / Real.sqrt 3,        -PHI_INV;
     -1 / Real.sqrt 3,      2 * PHI_INV / Real.sqrt 3,       -PHI_INV2;
     -PHI_INV,          -PHI_INV2,   2 * PHI_INV2 / Real.sqrt 3]

/-- C4: `construct_M0` returns a 3×3 real matrix that is exactly symmetric:
`M0[i][j] = M0[j][i]` for every pair of indices. -/
theorem C4_M0_symmetric : ∀ i j : Fin 3, M0 i j = M0 j i := by
  intro i j
  fin_cases i <;> fin_cases j <;> rfl

/-! ### C3: literal expected-eigenvalue constants across the three files -/

/-- `get_paper_predictions()['M0_eigenvalues']` (`model.py` line 296). -/
def M0_eigenvalues_model : Fin 3 → ℚ := ![-1.4571, 0.3820, 0.2361]

/-- `expected` in `ResultVerifier.verify_eigenvalues` (`verify_results.py` line 172). -/
def expected_eigenvalues_verify : Fin 3 → ℚ := ![-1.56426517, 0.99327059, 0.57099458]

/-- `paper_eigvals` in `diagnostic.py` (line 29). -/
def paper_eigvals_diagnostic : Fin 3 → ℚ := ![-1.457, 0.382, 0.236]

/-- C3: the three literal expected-eigenvalue vectors are not all equal, and
the `model.py` and `verify_results.py` vectors disagree in every component by
more than the 0.001 comparison tolerance. -/
theorem C3_eigenvalue_constants_differ :
    (¬ (M0_eigenvalues_model = expected_eigenvalues_verify ∧
        expected_eigenvalues_verify = paper_eigvals_diagnostic)) ∧
    ∀ i : Fin 3, |M0_eigenvalues_model i - expected_eigenvalues_verify i| > 1/1000 := by
  constructor
  · intro h
    have := congrFun h.1 0
    simp [M0_eigenvalues_model, expected_eigenvalues_verify] at this
    norm_num at this
  · intro i
    fin_cases i <;> norm_num [M0_eigenvalues_model, expected_eigenvalues_verify] <;>
      rw [abs_of_pos (by norm_num)] <;> norm_num

/-! ### Exact arithmetic in Q(sqrt 3, sqrt 5)

`Q35.mk a b c d` represents the real number `a + b*sqrt 3 + c*sqrt 5 + d*sqrt 15`. -/

structure Q35 where
  a : ℚ
  b : ℚ
  c : ℚ
  d : ℚ
deriving DecidableEq

instance : Zero Q35 := ⟨⟨0, 0, 0, 0⟩⟩

instance : One Q35 := ⟨⟨1, 0, 0, 0⟩⟩

instance : Add Q35 := ⟨fun x y => ⟨x.a + y.a, x.b + y.b, x.c + y.c, x.d + y.d⟩⟩

instance : Neg Q35 := ⟨fun x => ⟨-x.a, -x.b, -x.c, -x.d⟩⟩

instance : Sub Q35 := ⟨fun x y => x + -y⟩

instance : Mul Q35 :=
  ⟨fun x y =>
    ⟨x.a * y.a + 3 * x.b * y.b + 5 * x.c * y.c + 15 * x.d * y.d,
     x.a * y.b + x.b * y.a + 5 * (x.c * y.d + x.d * y.c),
     x.a * y.c + x.c * y.a + 3 * (x.b * y.d + x.d * y.b),
     x.a * y.d + x.d * y.a + x.b * y.c + x.c * y.b⟩⟩

lemma Q35.zero_def : (0 : Q35) = ⟨0, 0, 0, 0⟩ := rfl

lemma Q35.one_def : (1 : Q35) = ⟨1, 0, 0, 0⟩ := rfl

lemma Q35.add_def (x y : Q35) :
    x + y = ⟨x.a + y.a, x.b + y.b, x.c + y.c, x.d + y.d⟩ := rfl

lemma Q35.neg_def (x : Q35) : -x = ⟨-x.a, -x.b, -x.c, -x.d⟩ := rfl

lemma Q35.sub_def (x y : Q35) : x - y = x + -y := rfl

lemma Q35.mul_def (x y : Q35) :
    x * y =
      ⟨x.a * y.a + 3 * x.b * y.b + 5 * x.c * y.c + 15 * x.d * y.d,
       x.a * y.b + x.b * y.a + 5 * (x.c * y.d + x.d * y.c),
       x.a * y.c + x.c * y.a + 3 * (x.b * y.d + x.d * y.b),
       x.a * y.d + x.d * y.a + x.b * y.c + x.c * y.b⟩ := rfl

noncomputable def Q35.toReal (x : Q35) : ℝ :=
  (x.a : ℝ) + x.b * Real.sqrt 3 + x.c * Real.sqrt 5 + x.d * Real.sqrt 15

lemma Q35.toReal_zero : (0 : Q35).toReal = 0 := by
  rw [Q35.zero_def]; simp [Q35.toReal]

lemma Q35.toReal_one : (1 : Q35).toReal = 1 := by
  rw [Q35.one_def]; simp [Q35.toReal]

lemma Q35.toReal_add (x y : Q35) : (x + y).toReal = x.toReal + y.toReal := by
  rw [Q35.add_def]
  simp only [Q35.toReal]
  push_cast
  ring

lemma Q35.toReal_neg (x : Q35) : (-x).toReal = -x.toReal := by
  rw [Q35.neg_def]
  simp only [Q35.toReal]
  push_cast
  ring

lemma Q35.toReal_sub (x y : Q35) : (x - y).toReal = x.toReal - y.toReal := by
  rw [Q35.sub_def, Q35.toReal_add, Q35.toReal_neg]
  ring

lemma Q35.toReal_mul (x y : Q35) : (x * y).toReal = x.toReal * y.toReal := by
  rw [Q35.mul_def]
  simp only [Q35.toReal]
  push_cast
  linear_combination
    (-(x.b : ℝ) * y.b) * s3_sq + (-(x.c : ℝ) * y.c) * s5_sq + (-(x.d : ℝ) * y.d) * s15_sq +
    (-(x.c : ℝ) * y.d - x.d * y.c) * s5_mul_s15 +
    (-(x.b : ℝ) * y.d - x.d * y.b) * s3_mul_s15 +
    (-(x.b : ℝ) * y.c - x.c * y.b) * s3_mul_s5

/-! ### Exact Q35 form of the entries of M0 -/

def q00 : Q35 := ⟨0, -2/3, 0, 0⟩

def q01 : Q35 := ⟨0, -1/3, 0, 0⟩

def q02 : Q35 := ⟨1/2, 0, -1/2, 0⟩

def q11 : Q35 := ⟨0, -1/3, 0, 1/3⟩

def q12 : Q35 := ⟨-3/2, 0, 1/2, 0⟩

def q22 : Q35 := ⟨0, 1, 0, -1/3⟩

def M0q : Matrix (Fin 3) (Fin 3) Q35 :=
  !![q00, q01, q02;
     q01, q11, q12;
     q02, q12, q22]

lemma s3_ne : Real.sqrt 3 ≠ 0 := ne_of_gt s3_pos

lemma entry00 : (-2 / Real.sqrt 3 : ℝ) = q00.toReal := by
  simp only [q00, Q35.toReal]
  push_cast
  rw [div_eq_iff s3_ne]
  linear_combination (2/3 : ℝ) * s3_sq

lemma entry01 : (-1 / Real.sqrt 3 : ℝ) = q01.toReal := by
  simp only [q01, Q35.toReal]
  push_cast
  rw [div_eq_iff s3_ne]
  linear_combination (1/3 : ℝ) * s3_sq

lemma entry02 : (-PHI_INV : ℝ) = q02.toReal := by
  simp only [q02, Q35.toReal]
  rw [PHI_INV_eq]
  push_cast
  ring

lemma entry11 : (2 * PHI_INV / Real.sqrt 3 : ℝ) = q11.toReal := by
  simp only [q11, Q35.toReal]
  rw [PHI_INV_eq]
  push_cast
  rw [div_eq_iff s3_ne]
  linear_combination (1/3 : ℝ) * s3_sq + (-1/3 : ℝ) * s3_mul_s15

lemma entry12 : (-PHI_INV2 : ℝ) = q12.toReal := by
  simp only [q12, Q35.toReal]
  rw [PHI_INV2_eq]
  push_cast
  ring

lemma entry22 : (2 * PHI_INV2 / Real.sqrt 3 : ℝ) = q22.toReal := by
  simp only [q22, Q35.toReal]
  rw [PHI_INV2_eq]
  push_cast
  rw [div_eq_iff s3_ne]
  linear_combination (-1 : ℝ) * s3_sq + (1/3 : ℝ) * s3_mul_s15

lemma M0_entry (i j : Fin 3) : M0 i j = (M0q i j).toReal := by
  fin_cases i <;> fin_cases j <;>
    simp only [M0, M0q, Matrix.cons_val', Matrix.cons_val_zero, Matrix.cons_val_one,
      Matrix.head_cons, Matrix.empty_val', Matrix.cons_val_fin_one, Matrix.head_fin_const,
      Matrix.of_apply, Fin.isValue] <;>
    first
      | exact entry00
      | exact entry01
      | exact entry02
      | exact entry11
      | exact entry12
      | exact entry22

/-! ### Characteristic polynomial of M0 (what `np.linalg.eigh` diagonalizes) -/

/-- Second elementary symmetric function of the eigenvalues of M0, exactly. -/
def e2q : Q35 := (q00 * q11 - q01 * q01) + (q00 * q22 - q02 * q02) + (q11 * q22 - q12 * q12)

/-- Determinant of M0, exactly (laid out as in `Matrix.det_fin_three`,
with the symmetric entries substituted). -/
def e3q : Q35 :=
  q00 * q11 * q22 - q00 * q12 * q12 - q01 * q01 * q22 +
    q01 * q12 * q02 + q02 * q01 * q12 - q02 * q11 * q02

/-- Determinant expansion for a 3×3 real matrix shifted by a scalar. -/
lemma det_sub_smul_one (M : Matrix (Fin 3) (Fin 3) ℝ) (x : ℝ) :
    (M - x • (1 : Matrix (Fin 3) (Fin 3) ℝ)).det =
      -x ^ 3 + (M 0 0 + M 1 1 + M 2 2) * x ^ 2 -
        ((M 0 0 * M 1 1 - M 0 1 * M 1 0) + (M 0 0 * M 2 2 - M 0 2 * M 2 0) +
          (M 1 1 * M 2 2 - M 1 2 * M 2 1)) * x +
        M.det := by
  simp [Matrix.det_fin_three, Matrix.sub_apply, Matrix.smul_apply, Matrix.one_apply]
  ring

lemma M0q_00 : M0q 0 0 = q00 := rfl

lemma M0q_01 : M0q 0 1 = q01 := rfl

lemma M0q_02 : M0q 0 2 = q02 := rfl

lemma M0q_10 : M0q 1 0 = q01 := rfl

lemma M0q_11 : M0q 1 1 = q11 := rfl

lemma M0q_12 : M0q 1 2 = q12 := rfl

lemma M0q_20 : M0q 2 0 = q02 := rfl

lemma M0q_21 : M0q 2 1 = q12 := rfl

lemma M0q_22 : M0q 2 2 = q22 := rfl

lemma M0_trace_eq : M0 0 0 + M0 1 1 + M0 2 2 = 0 := by
  simp only [M0_entry, M0q_00, M0q_11, M0q_22]
  simp only [← Q35.toReal_add]
  rw [show q00 + q11 + q22 = (0 : Q35) from by
    rw [Q35.zero_def]; norm_num [q00, q11, q22, Q35.add_def]]
  exact Q35.toReal_zero

lemma M0_minors_eq :
    (M0 0 0 * M0 1 1 - M0 0 1 * M0 1 0) + (M0 0 0 * M0 2 2 - M0 0 2 * M0 2 0) +
      (M0 1 1 * M0 2 2 - M0 1 2 * M0 2 1) = e2q.toReal := by
  simp only [M0_entry, M0q_00, M0q_01, M0q_02, M0q_10, M0q_11, M0q_12, M0q_20, M0q_21, M0q_22]
  simp only [← Q35.toReal_mul, ← Q35.toReal_sub, ← Q35.toReal_add]
  rfl

lemma M0_det_eq : M0.det = e3q.toReal := by
  rw [Matrix.det_fin_three]
  simp only [M0_entry, M0q_00, M0q_01, M0q_02, M0q_10, M0q_11, M0q_12, M0q_20, M0q_21, M0q_22]
  simp only [← Q35.toReal_mul, ← Q35.toReal_sub, ← Q35.toReal_add]
  rfl

/-- The characteristic equation of M0: `det (M0 - x I) = -(x³ + E2·x - E3)`. -/
lemma M0_char (x : ℝ) :
    (M0 - x • (1 : Matrix (Fin 3) (Fin 3) ℝ)).det =
      -(x ^ 3 + e2q.toReal * x - e3q.toReal) := by
  rw [det_sub_smul_one, M0_trace_eq, M0_minors_eq, M0_det_eq]
  ring

lemma e2q_eq : e2q = ⟨-28/3, 0, 10/3, 0⟩ := by
  norm_num [e2q, q00, q01, q02, q11, q12, q22, Q35.mul_def, Q35.add_def, Q35.sub_def,
    Q35.neg_def]

lemma e3q_eq : e3q = ⟨0, 58/9, 0, -28/9⟩ := by
  norm_num [e3q, q00, q01, q02, q11, q12, q22, Q35.mul_def, Q35.add_def, Q35.sub_def,
    Q35.neg_def]

lemma E2_bounds : -1.8797737 < e2q.toReal ∧ e2q.toReal < -1.8797733 := by
  rw [e2q_eq]
  simp only [Q35.toReal]
  push_cast
  constructor <;> nlinarith [s5_gt, s5_lt]

lemma E3_bounds : -0.8871766 < e3q.toReal ∧ e3q.toReal < -0.8871755 := by
  rw [e3q_eq]
  simp only [Q35.toReal]
  push_cast
  constructor <;> nlinarith [s3_gt, s3_lt, s15_gt, s15_lt]

/-- The monic cubic whose roots are exactly the eigenvalues of M0. -/
noncomputable def charCubic (x : ℝ) : ℝ := x ^ 3 + e2q.toReal * x - e3q.toReal

lemma M0_char_cubic (x : ℝ) :
    (M0 - x • (1 : Matrix (Fin 3) (Fin 3) ℝ)).det = -charCubic x := by
  rw [M0_char]; rfl

lemma charCubic_continuous : Continuous charCubic := by
  unfold charCubic
  fun_prop

lemma charCubic_neg_left : charCubic (-1.5643) < 0 := by
  unfold charCubic
  nlinarith [E2_bounds.1, E2_bounds.2, E3_bounds.1, E3_bounds.2]

lemma charCubic_pos_left : 0 < charCubic (-1.5642) := by
  unfold charCubic
  nlinarith [E2_bounds.1, E2_bounds.2, E3_bounds.1, E3_bounds.2]

lemma charCubic_pos_mid : 0 < charCubic 0.5709 := by
  unfold charCubic
  nlinarith [E2_bounds.1, E2_bounds.2, E3_bounds.1, E3_bounds.2]

lemma charCubic_neg_mid : charCubic 0.5711 < 0 := by
  unfold charCubic
  nlinarith [E2_bounds.1, E2_bounds.2, E3_bounds.1, E3_bounds.2]

lemma charCubic_neg_right : charCubic 0.9931 < 0 := by
  unfold charCubic
  nlinarith [E2_bounds.1, E2_bounds.2, E3_bounds.1, E3_bounds.2]

lemma charCubic_pos_right : 0 < charCubic 0.9935 := by
  unfold charCubic
  nlinarith [E2_bounds.1, E2_bounds.2, E3_bounds.1, E3_bounds.2]

lemma charCubic_root_a :
    ∃ x : ℝ, -1.5643 ≤ x ∧ x ≤ -1.5642 ∧ charCubic x = 0 := by
  have h := intermediate_value_Icc (by norm_num : (-1.5643 : ℝ) ≤ -1.5642)
    charCubic_continuous.continuousOn
  have h0 : (0 : ℝ) ∈ Set.Icc (charCubic (-1.5643)) (charCubic (-1.5642)) :=
    ⟨le_of_lt charCubic_neg_left, le_of_lt charCubic_pos_left⟩
  obtain ⟨x, hx, hfx⟩ := h h0
  exact ⟨x, hx.1, hx.2, hfx⟩

lemma charCubic_root_b :
    ∃ x : ℝ, 0.5709 ≤ x ∧ x ≤ 0.5711 ∧ charCubic x = 0 := by
  have h := intermediate_value_Icc' (by norm_num : (0.5709 : ℝ) ≤ 0.5711)
    charCubic_continuous.continuousOn
  have h0 : (0 : ℝ) ∈ Set.Icc (charCubic 0.5711) (charCubic 0.5709) :=
    ⟨le_of_lt charCubic_neg_mid, le_of_lt charCubic_pos_mid⟩
  obtain ⟨x, hx, hfx⟩ := h h0
  exact ⟨x, hx.1, hx.2, hfx⟩

lemma charCubic_root_c :
    ∃ x : ℝ, 0.9931 ≤ x ∧ x ≤ 0.9935 ∧ charCubic x = 0 := by
  have h := intermediate_value_Icc (by norm_num : (0.9931 : ℝ) ≤ 0.9935)
    charCubic_continuous.continuousOn
  have h0 : (0 : ℝ) ∈ Set.Icc (charCubic 0.9931) (charCubic 0.9935) :=
    ⟨le_of_lt charCubic_neg_right, le_of_lt charCubic_pos_right⟩
  obtain ⟨x, hx, hfx⟩ := h h0
  exact ⟨x, hx.1, hx.2, hfx⟩

/-- A monic depressed cubic with three distinct roots factors completely. -/
lemma cubic_eq_prod (p q a b c : ℝ) (hab : a < b) (hbc : b < c)
    (ha : a ^ 3 + p * a + q = 0) (hb : b ^ 3 + p * b + q = 0)
    (hc : c ^ 3 + p * c + q = 0) :
    ∀ x : ℝ, x ^ 3 + p * x + q = (x - a) * (x - b) * (x - c) := by
  have hab' : a - b ≠ 0 := sub_ne_zero.mpr (ne_of_lt hab)
  have hbc' : b - c ≠ 0 := sub_ne_zero.mpr (ne_of_lt hbc)
  have hac' : a - c ≠ 0 := sub_ne_zero.mpr (ne_of_lt (lt_trans hab hbc))
  have h1 : a ^ 2 + a * b + b ^ 2 + p = 0 := by
    have h : (a - b) * (a ^ 2 + a * b + b ^ 2 + p) = 0 := by linear_combination ha - hb
    rcases mul_eq_zero.mp h with h | h
    · exact absurd h hab'
    · exact h
  have h2 : b ^ 2 + b * c + c ^ 2 + p = 0 := by
    have h : (b - c) * (b ^ 2 + b * c + c ^ 2 + p) = 0 := by linear_combination hb - hc
    rcases mul_eq_zero.mp h with h | h
    · exact absurd h hbc'
    · exact h
  have hsum : a + b + c = 0 := by
    have h : (a - c) * (a + b + c) = 0 := by linear_combination h1 - h2
    rcases mul_eq_zero.mp h with h | h
    · exact absurd h hac'
    · exact h
  have hp : p = a * b + a * c + b * c := by
    linear_combination h1 - (a + b) * hsum
  have hq : q = -(a * b * c) := by
    linear_combination ha - a * hp - a ^ 2 * hsum
  intro x
  linear_combination x ^ 2 * hsum + x * hp + hq

/-- C1: `verify_golden_hierarchy` with tolerance 0.05 returns `True`.  M0 has
exactly three eigenvalues; sorted by descending absolute value and normalized
to the largest, they differ from `(1, φ⁻¹, φ⁻²)` componentwise by a relative
error strictly below 0.05. -/
theorem C1_verify_golden_hierarchy :
    ∃ l1 l2 l3 : ℝ,
      (∀ x : ℝ, (M0 - x • (1 : Matrix (Fin 3) (Fin 3) ℝ)).det = 0 ↔
        (x = l1 ∨ x = l2 ∨ x = l3)) ∧
      |l2| ≤ |l1| ∧ |l3| ≤ |l2| ∧ 0 < |l1| ∧
      |(|l1| / |l1|) - 1| / 1 < 0.05 ∧
      |(|l2| / |l1|) - PHI_INV| / PHI_INV < 0.05 ∧
      |(|l3| / |l1|) - PHI_INV2| / PHI_INV2 < 0.05 := by
  obtain ⟨la, ha1, ha2, hfa⟩ := charCubic_root_a
  obtain ⟨lb, hb1, hb2, hfb⟩ := charCubic_root_b
  obtain ⟨lc, hc1, hc2, hfc⟩ := charCubic_root_c
  have hfa' : la ^ 3 + e2q.toReal * la + -e3q.toReal = 0 := by
    have := hfa; unfold charCubic at this; linarith
  have hfb' : lb ^ 3 + e2q.toReal * lb + -e3q.toReal = 0 := by
    have := hfb; unfold charCubic at this; linarith
  have hfc' : lc ^ 3 + e2q.toReal * lc + -e3q.toReal = 0 := by
    have := hfc; unfold charCubic at this; linarith
  have hab : la < lb := by linarith
  have hbc : lb < lc := by linarith
  have hfactor := cubic_eq_prod (e2q.toReal) (-e3q.toReal) la lb lc hab hbc hfa' hfb' hfc'
  have habs_a : |la| = -la := abs_of_neg (by linarith)
  have habs_b : |lb| = lb := abs_of_pos (by linarith)
  have habs_c : |lc| = lc := abs_of_pos (by linarith)
  have hla_pos : (0 : ℝ) < -la := by linarith
  have hPI := PHI_INV_pos
  have hPI2 := PHI_INV2_pos
  have hPIeq := PHI_INV_eq
  have hPI2eq := PHI_INV2_eq
  have hs5lo := s5_gt
  have hs5hi := s5_lt
  refine ⟨la, lc, lb, ?_, ?_, ?_, ?_, ?_, ?_, ?_⟩
  · intro x
    rw [M0_char_cubic, neg_eq_zero]
    have hx : charCubic x = (x - la) * (x - lb) * (x - lc) := by
      unfold charCubic
      have := hfactor x
      linarith
    rw [hx]
    constructor
    · intro h
      rcases mul_eq_zero.mp h with h' | h'
      · rcases mul_eq_zero.mp h' with h'' | h''
        · exact Or.inl (by linarith [sub_eq_zero.mp h''])
        · exact Or.inr (Or.inr (by linarith [sub_eq_zero.mp h'']))
      · exact Or.inr (Or.inl (by linarith [sub_eq_zero.mp h']))
    · intro h
      rcases h with h | h | h
      · rw [h]; ring
      · rw [h]; ring
      · rw [h]; ring
  · rw [habs_a, habs_c]; linarith
  · rw [habs_b, habs_c]; linarith
  · rw [habs_a]; linarith
  · rw [habs_a, div_self (ne_of_gt hla_pos)]
    norm_num
  · rw [habs_a, habs_c]
    have hr_lo : (0.6348 : ℝ) ≤ lc / (-la) := by
      rw [le_div_iff₀ hla_pos]; linarith
    have hr_hi : lc / (-la) ≤ 0.6352 := by
      rw [div_le_iff₀ hla_pos]; linarith
    have hPIlo : (0.61803395 : ℝ) ≤ PHI_INV := by rw [hPIeq]; linarith
    have hPIhi : PHI_INV ≤ 0.61803400 := by rw [hPIeq]; linarith
    rw [div_lt_iff₀ hPI, abs_of_pos (by linarith)]
    linarith
  · rw [habs_a, habs_b]
    have hr_lo : (0.3649 : ℝ) ≤ lb / (-la) := by
      rw [le_div_iff₀ hla_pos]; linarith
    have hr_hi : lb / (-la) ≤ 0.36517 := by
      rw [div_le_iff₀ hla_pos]; linarith
    have hPI2lo : (0.3819660 : ℝ) ≤ PHI_INV2 := by rw [hPI2eq]; linarith
    have hPI2hi : PHI_INV2 ≤ 0.38196605 := by rw [hPI2eq]; linarith
    rw [div_lt_iff₀ hPI2, abs_of_neg (by linarith)]
    linarith

/-! ### C2: process exit codes of the command-line entry points

`vrExitCode` models `verify_results.main` (lines 367-434): flags
`--theorem1 --matrix --eigenvalues --hierarchy --all`, together with the
outcomes of the nine checks of `run_all_tests` (lines 336-348).  When no
individual flag is given (or `--all` is), the whole suite runs; otherwise the
first selected branch runs its single check and exits immediately.
`uacExitCode` models `update_and_compile_paper.main` (lines 337-401). -/

def vrRunAll (t m e h a : Bool) : Bool := a || !(t || m || e || h)

def vrExitCode (t m e h a : Bool)
    (rtau rthm rcor rstab rws rm0 reig rgh rhp : Bool) : Nat :=
  if vrRunAll t m e h a then
    if rtau && rthm && rcor && rstab && rws && rm0 && reig && rgh && rhp then 0 else 1
  else if t then (if rthm then 0 else 1)
  else if m then (if rm0 then 0 else 1)
  else if e then (if reig then 0 else 1)
  else if h then (if rhp then 0 else 1)
  else 0

/-- Conjunction of the outcomes of exactly the checks performed in a run of
`verify_results.main` with the given flags. -/
def vrPerformedPass (t m e h a : Bool)
    (rtau rthm rcor rstab rws rm0 reig rgh rhp : Bool) : Bool :=
  if vrRunAll t m e h a then
    rtau && rthm && rcor && rstab && rws && rm0 && reig && rgh && rhp
  else if t then rthm
  else if m then rm0
  else if e then reig
  else if h then rhp
  else true

/-- `update_and_compile_paper.main`: returns 1 if reading/updating the paper
fails, and otherwise executes `return 0 if (verification_passed and
pdf_created) else 0` (line 401) - both branches of which are 0. -/
def uacExitCode (updateOk verificationPassed pdfCreated : Bool) : Nat :=
  if !updateOk then 1
  else if verificationPassed && pdfCreated then 0 else 0

/-- C2 (evidence for the code bug): `verify_results.main` exits 0 exactly when
all checks performed in that run pass, for every flag combination; but
`update_and_compile_paper.main` returns exit status 0 even in runs where the
verification check or the PDF-compilation step failed, because line 401 of
`update_and_compile_paper.py` returns 0 on both branches of its conditional. -/
theorem C2_exit_codes :
    (∀ t m e h a rtau rthm rcor rstab rws rm0 reig rgh rhp : Bool,
      vrExitCode t m e h a rtau rthm rcor rstab rws rm0 reig rgh rhp =
        (if vrPerformedPass t m e h a rtau rthm rcor rstab rws rm0 reig rgh rhp
          then 0 else 1)) ∧
    uacExitCode true false false = 0 ∧
    uacExitCode true false true = 0 ∧
    uacExitCode true true false = 0 := by
  refine ⟨?_, rfl, rfl, rfl⟩
  decide

/-! ### C9: `A5ModularForms.compute_modular_weight_suppression`
(`model.py` lines 101-116) -/

noncomputable def compute_modular_weight_suppression (weight : ℤ) : Except String ℝ :=
  if weight < 2 then Except.error "Modular weight must be at least 2"
  else Except.ok (PHI ^ ((-((weight : ℝ) - 2)) / 2))

/-- C9: `compute_modular_weight_suppression` raises ValueError exactly when
`weight < 2`; for every `weight ≥ 2` it returns `φ ^ (-(weight-2)/2)`. -/
theorem C9_weight_suppression (w : ℤ) :
    (w < 2 → compute_modular_weight_suppression w =
      Except.error "Modular weight must be at least 2") ∧
    (2 ≤ w → compute_modular_weight_suppression w =
      Except.ok (PHI ^ ((-((w : ℝ) - 2)) / 2))) := by
  constructor
  · intro hw
    unfold compute_modular_weight_suppression
    rw [if_pos hw]
  · intro hw
    unfold compute_modular_weight_suppression
    rw [if_neg (not_lt.mpr hw)]

/-- Witness for C9 at the concrete weights 1 and 4. -/
theorem C9_weight_suppression_witness :
    compute_modular_weight_suppression 1 =
      Except.error "Modular weight must be at least 2" ∧
    compute_modular_weight_suppression 4 =
      Except.ok (PHI ^ ((-(((4 : ℤ) : ℝ) - 2)) / 2)) :=
  ⟨(C9_weight_suppression 1).1 (by norm_num), (C9_weight_suppression 4).2 (by norm_num)⟩

/-! ### C7: `GoldenYukawaMatrix.get_eigenvalues` (`model.py` lines 152-168)

`np.linalg.eigh` returns eigenvalues `ev` and an eigenvector matrix `V` with
`M0 @ V = V @ diag(ev)`.  The function then reorders both by
`idx = np.argsort(np.abs(eigenvalues))[::-1]`.  `sortPerm3` is the index
permutation produced by that argsort-descending step. -/

noncomputable def sortPerm3 (v : Fin 3 → ℝ) : Fin 3 → Fin 3 :=
  if v 1 ≤ v 0 then
    if v 2 ≤ v 1 then ![0, 1, 2]
    else if v 2 ≤ v 0 then ![0, 2, 1]
    else ![2, 0, 1]
  else
    if v 2 ≤ v 1 then
      if v 2 ≤ v 0 then ![1, 0, 2] else ![1, 2, 0]
    else ![2, 1, 0]

lemma sortPerm3_adj (v : Fin 3 → ℝ) :
    v (sortPerm3 v 1) ≤ v (sortPerm3 v 0) ∧ v (sortPerm3 v 2) ≤ v (sortPerm3 v 1) := by
  unfold sortPerm3
  split_ifs with h1 h2 h3 h4 h5 <;> constructor <;>
    first
      | exact le_refl (v 0)
      | exact le_refl (v 1)
      | exact le_refl (v 2)
      | exact (show v 1 ≤ v 0 by linarith)
      | exact (show v 2 ≤ v 1 by linarith)
      | exact (show v 2 ≤ v 0 by linarith)
      | exact (show v 0 ≤ v 1 by linarith)
      | exact (show v 0 ≤ v 2 by linarith)
      | exact (show v 1 ≤ v 2 by linarith)

lemma sortPerm3_sorted (v : Fin 3 → ℝ) :
    ∀ i j : Fin 3, i ≤ j → v (sortPerm3 v j) ≤ v (sortPerm3 v i) := by
  intro i j hij
  have h01 := (sortPerm3_adj v).1
  have h12 := (sortPerm3_adj v).2
  fin_cases i <;> fin_cases j <;>
    first
      | exact absurd hij (by decide)
      | exact le_refl _
      | exact h01
      | exact h12
      | exact le_trans h12 h01

noncomputable def eighSortIdx (ev : Fin 3 → ℝ) : Fin 3 → Fin 3 :=
  sortPerm3 (fun i => |ev i|)

/-- The eigenvalue array returned by `get_eigenvalues`. -/
noncomputable def get_eigenvalues_vals (ev : Fin 3 → ℝ) : Fin 3 → ℝ :=
  fun i => ev (eighSortIdx ev i)

/-- The eigenvector matrix returned by `get_eigenvalues`
(`eigenvectors[:, idx]`). -/
noncomputable def get_eigenvalues_vecs (ev : Fin 3 → ℝ)
    (V : Matrix (Fin 3) (Fin 3) ℝ) : Matrix (Fin 3) (Fin 3) ℝ :=
  fun i j => V i (eighSortIdx ev j)

/-- C7: if `(ev, V)` is the eigendecomposition of M0 delivered by
`np.linalg.eigh` (so that `M0 * V = V * diag ev`), then `get_eigenvalues`
returns the eigenvalues ordered by non-increasing absolute value, and the
eigenvector columns are permuted by the same ordering, so that column `j` is
an eigenvector of M0 for the `j`-th returned eigenvalue. -/
theorem C7_get_eigenvalues_sorted (ev : Fin 3 → ℝ) (V : Matrix (Fin 3) (Fin 3) ℝ)
    (hV : M0 * V = V * Matrix.diagonal ev) :
    (∀ i j : Fin 3, i ≤ j →
      |get_eigenvalues_vals ev j| ≤ |get_eigenvalues_vals ev i|) ∧
    (∀ j : Fin 3,
      M0.mulVec (fun i => get_eigenvalues_vecs ev V i j) =
        get_eigenvalues_vals ev j • (fun i => get_eigenvalues_vecs ev V i j)) := by
  constructor
  · intro i j hij
    exact sortPerm3_sorted (fun i => |ev i|) i j hij
  · intro j
    funext i
    have h1 : (M0 * V) i (eighSortIdx ev j) =
        (V * Matrix.diagonal ev) i (eighSortIdx ev j) := by rw [hV]
    rw [Matrix.mul_diagonal] at h1
    show (M0.mulVec fun r => V r (eighSortIdx ev j)) i = _
    simp only [Matrix.mulVec, Matrix.dotProduct, Pi.smul_apply, smul_eq_mul]
    rw [show ∑ l, M0 i l * V l (eighSortIdx ev j) = (M0 * V) i (eighSortIdx ev j) from
      (Matrix.mul_apply).symm]
    rw [h1]
    show V i (eighSortIdx ev j) * ev (eighSortIdx ev j) =
      get_eigenvalues_vals ev j * V i (eighSortIdx ev j)
    rw [get_eigenvalues_vals]
    ring

/-- Witness for C7 at the concrete decomposition `ev = (1, -2, 0)`, `V = 0`. -/
theorem C7_get_eigenvalues_sorted_witness :
    |get_eigenvalues_vals ![1, -2, 0] 1| ≤ |get_eigenvalues_vals ![1, -2, 0] 0| ∧
    M0.mulVec (fun i => get_eigenvalues_vecs ![1, -2, 0] 0 i 1) =
      get_eigenvalues_vals ![1, -2, 0] 1 •
        (fun i => get_eigenvalues_vecs ![1, -2, 0] 0 i 1) := by
  have h := C7_get_eigenvalues_sorted ![1, -2, 0] 0 (by simp)
  exact ⟨h.1 0 1 (by decide), h.2 1⟩

/-! ### C8: the text transformations of `fix_eigenvalue_docs.py`

The script applies, to the contents of `verify_results.py`, a
header-prepending step (lines 27-29) followed by a regex substitution, and to
the contents of `model.py` a `str.replace` inserting a class docstring
(lines 48-64).  `pyReplaceAux` is Python `str.replace` for a non-empty
pattern: scan left to right, replace each non-overlapping occurrence. -/

def pyReplaceAux (pat rep : List Char) : Nat → List Char → List Char
  | 0, text => text
  | _ + 1, [] => []
  | fuel + 1, ch :: rest =>
    if pat.isPrefixOf (ch :: rest) then
      rep ++ pyReplaceAux pat rep fuel ((ch :: rest).drop pat.length)
    else
      ch :: pyReplaceAux pat rep fuel rest

/-- Python `pat in text` for lists of characters. -/
def listContains (pat : List Char) : List Char → Bool
  | [] => pat.isEmpty
  | ch :: rest => pat.isPrefixOf (ch :: rest) || listContains pat rest

def a5_needle : List Char := "class A5ModularForms".toList

def a5_target : List Char := "class A5ModularForms:".toList

def a5_replacement : List Char :=
  ("class A5ModularForms:\n    \"\"\"\n    Implementation of A5 modular forms at τ₀ = e^(2πi/5).\n    \n    EIGENVALUE NOTE: Computes exact values. Paper shows approximations.\n    See verify_results.py for details.\n    \"\"\"").toList

/-- The transformation `fix_eigenvalue_docs.py` applies to the contents of
`model.py` (lines 48-64): if the text contains `class A5ModularForms`, every
occurrence of `class A5ModularForms:` is replaced by the class header with an
inserted docstring; otherwise the text is left unchanged. -/
def modelDocTransform (text : List Char) : List Char :=
  if listContains a5_needle text then
    pyReplaceAux a5_target a5_replacement text.length text
  else text

def vrHeader : List Char :=
  ("\"\"\"\nGolden Ratio Modular Flavor Symmetry - Verification Script\n\nNOTE ON EIGENVALUES:\nThe paper (Section 3.3) lists approximate eigenvalues: \n    λ₁ ≈ -1.457, λ₂ ≈ 0.382, λ₃ ≈ 0.236\n    \nThis implementation computes exact eigenvalues from M₀:\n    λ₁ = -1.56426517, λ₂ = 0.57099458, λ₃ = 0.99327059\n\nThe verification now uses our exact computed values.\nBoth preserve the golden ratio hierarchy pattern.\n\"\"\"\n\n").toList

def docstringMark : List Char := "\"\"\"".toList

/-- The header-prepending step applied to the contents of `verify_results.py`
(lines 27-29): prepend the explanatory header unless the file already starts
with a docstring. -/
def vrHeaderTransform (text : List Char) : List Char :=
  if docstringMark.isPrefixOf text then text else vrHeader ++ text

set_option maxRecDepth 100000 in
/-- C8 counterexample: applying the `model.py` transformation twice to the
text `class A5ModularForms:` gives a different result than applying it once,
because the replacement text itself contains the replaced pattern. -/
theorem C8_counterexample :
    modelDocTransform (modelDocTransform ("class A5ModularForms:").toList) ≠
      modelDocTransform ("class A5ModularForms:").toList := by
  decide

lemma docstringMark_prefix_header : docstringMark <+: vrHeader := by decide

/-! The regex substitution step of the `verify_results.py` transformation
(`fix_eigenvalue_docs.py` lines 32-36):
`re.sub(r'paper_eigvals\s*=\s*np\.array\(\[[^\]]+\]\)', replacement, content)`.
The pattern is a concrete regex whose matching is deterministic: literal
`paper_eigvals`, a maximal run of whitespace, `=`, a maximal run of
whitespace, literal `np.array([`, at least one character other than `]`
(up to the first `]`, since the negated class cannot cross it), then `])`.
`re.sub` replaces the non-overlapping leftmost matches, scanning on from the
end of each match. -/

/-- Python `\s` on `str`: characters with the Unicode whitespace property
(including the control characters U+001C-001F). -/
def isPySpace (c : Char) : Bool :=
  decide (0x09 ≤ c.toNat ∧ c.toNat ≤ 0x0D) || decide (0x1C ≤ c.toNat ∧ c.toNat ≤ 0x1F) ||
  decide (c.toNat = 0x20) || decide (c.toNat = 0x85) || decide (c.toNat = 0xA0) ||
  decide (c.toNat = 0x1680) || decide (0x2000 ≤ c.toNat ∧ c.toNat ≤ 0x200A) ||
  decide (c.toNat = 0x2028) || decide (c.toNat = 0x2029) || decide (c.toNat = 0x202F) ||
  decide (c.toNat = 0x205F) || decide (c.toNat = 0x3000)

/-- Greedy `\s*`. -/
def dropPySpaces : List Char → List Char
  | [] => []
  | c :: rest => if isPySpace c then dropPySpaces rest else c :: rest

/-- Consume up to and including the first `]`; `none` when there is none. -/
def skipToRBracket : List Char → Option (List Char)
  | [] => none
  | c :: rest => if c = ']' then some rest else skipToRBracket rest

/-- Try to match the `paper_eigvals` pattern at the start of `s`; on success
return the rest of the text after the match. -/
def matchPaperEigvalsAt (s : List Char) : Option (List Char) :=
  if ("paper_eigvals").toList.isPrefixOf s then
    match dropPySpaces (s.drop ("paper_eigvals").toList.length) with
    | '=' :: s3 =>
      match dropPySpaces s3 with
      | s4 =>
        if ("np.array([").toList.isPrefixOf s4 then
          match s4.drop ("np.array([").toList.length with
          | [] => none
          | c :: rest =>
            if c = ']' then none
            else
              match skipToRBracket rest with
              | none => none
              | some s6 =>
                match s6 with
                | ')' :: s7 => some s7
                | _ => none
        else none
    | _ => none
  else none

/-- The replacement string of the `re.sub` call (line 34). -/
def paperEigvalsRep : List Char :=
  ("paper_eigvals = np.array([-1.56426517, 0.57099458, 0.99327059])  # Exact computed values").toList

/-- `re.sub` for this pattern: scan left to right, replacing each
non-overlapping leftmost match. -/
def reSubAux (rep : List Char) : Nat → List Char → List Char
  | 0, text => text
  | _ + 1, [] => []
  | fuel + 1, ch :: rest =>
    match matchPaperEigvalsAt (ch :: rest) with
    | some remainder => rep ++ reSubAux rep fuel remainder
    | none => ch :: reSubAux rep fuel rest

def reSubPaperEigvals (text : List Char) : List Char :=
  reSubAux paperEigvalsRep text.length text

/-- `true` when the pattern matches at no position of the text. -/
def noMatchPaperEigvals : List Char → Bool
  | [] => true
  | ch :: rest => (matchPaperEigvalsAt (ch :: rest)).isNone && noMatchPaperEigvals rest

/-- The full transformation applied to the contents of `verify_results.py`:
the header-prepending step (lines 27-29) followed by the regex substitution
(lines 32-36). -/
def vrFullTransform (text : List Char) : List Char :=
  reSubPaperEigvals (vrHeaderTransform text)

lemma reSubAux_of_noMatch (rep : List Char) :
    ∀ (fuel : Nat) (text : List Char), noMatchPaperEigvals text = true →
      reSubAux rep fuel text = text := by
  intro fuel
  induction fuel with
  | zero => intro text _; rfl
  | succ n ih =>
    intro text h
    cases text with
    | nil => rfl
    | cons ch rest =>
      unfold noMatchPaperEigvals at h
      rw [Bool.and_eq_true] at h
      cases hm : matchPaperEigvalsAt (ch :: rest) with
      | none =>
        simp only [reSubAux, hm]
        rw [ih rest h.2]
      | some r =>
        exfalso
        rw [hm] at h
        simp at h

lemma vrHeaderTransform_startsWithMark (text : List Char) :
    docstringMark.isPrefixOf (vrHeaderTransform text) = true := by
  unfold vrHeaderTransform
  by_cases h : docstringMark.isPrefixOf text = true
  · rw [if_pos h]
    exact h
  · rw [if_neg h]
    rw [List.isPrefixOf_iff_prefix]
    exact List.IsPrefix.trans docstringMark_prefix_header (List.prefix_append _ _)

lemma vrHeaderTransform_idem (text : List Char) :
    vrHeaderTransform (vrHeaderTransform text) = vrHeaderTransform text := by
  show (if docstringMark.isPrefixOf (vrHeaderTransform text) = true
    then vrHeaderTransform text else vrHeader ++ vrHeaderTransform text) = vrHeaderTransform text
  rw [if_pos (vrHeaderTransform_startsWithMark text)]

set_option maxRecDepth 400000 in
/-- C8 (amended): neither per-file transformation is idempotent on all input
texts.  What holds is: the header-prepending step applied to
`verify_results.py` is idempotent on every text; the docstring-insertion
transformation applied to `model.py` is idempotent on every text not
containing `class A5ModularForms` (on text containing
`class A5ModularForms:` a second application inserts the class docstring
again - the counterexample); the full `verify_results.py` transformation
(header prepend, then the `paper_eigvals` regex substitution) is idempotent
on every text whose header-prepended form contains no match of the pattern,
and it is not idempotent in general: on the text
`paper_eigvals = np.array([1])` a second application appends the trailing
comment of the replacement a second time. -/
theorem C8_amended_idempotence :
    (∀ text : List Char,
      vrHeaderTransform (vrHeaderTransform text) = vrHeaderTransform text) ∧
    (∀ text : List Char, listContains a5_needle text = false →
      modelDocTransform (modelDocTransform text) = modelDocTransform text) ∧
    (∀ text : List Char, noMatchPaperEigvals (vrHeaderTransform text) = true →
      vrFullTransform (vrFullTransform text) = vrFullTransform text) ∧
    vrFullTransform (vrFullTransform ("paper_eigvals = np.array([1])").toList) ≠
      vrFullTransform ("paper_eigvals = np.array([1])").toList := by
  refine ⟨vrHeaderTransform_idem, ?_, ?_, ?_⟩
  · intro text h
    simp [modelDocTransform, h]
  · intro text h
    have h1 : reSubPaperEigvals (vrHeaderTransform text) = vrHeaderTransform text :=
      reSubAux_of_noMatch _ _ _ h
    show vrFullTransform (vrFullTransform text) = vrFullTransform text
    unfold vrFullTransform
    rw [h1, vrHeaderTransform_idem, h1]
  · decide

set_option maxRecDepth 400000 in
/-- Witness for C8 (amended) on concrete texts satisfying the hypotheses. -/
theorem C8_amended_idempotence_witness :
    modelDocTransform (modelDocTransform ("print(1)\n").toList) =
      modelDocTransform ("print(1)\n").toList ∧
    vrFullTransform (vrFullTransform ("import sys\n").toList) =
      vrFullTransform ("import sys\n").toList :=
  ⟨C8_amended_idempotence.2.1 _ (by decide), C8_amended_idempotence.2.2.1 _ (by decide)⟩

/-! ### C10 and C6: `HierarchicalYukawa` (`model.py` lines 199-284)

`compute_physical_yukawa` multiplies M0 elementwise by the suppression
matrix `φ^(-(k_i+k_j)/2)` and by the coupling; `get_mass_hierarchy` takes
`Y @ Y.T`, its eigenvalues (`np.linalg.eigvalsh`), square roots of their
absolute values, sorted descending; `compute_hierarchy_span` filters masses
above `1e-15` and returns `log10(m_first/m_last)` (0 when fewer than two
remain). -/

def weightVec (k1 k2 k3 : ℤ) : Fin 3 → ℤ := ![k1, k2, k3]

noncomputable def compute_physical_yukawa (k1 k2 k3 : ℤ) (coupling : ℝ) :
    Matrix (Fin 3) (Fin 3) ℝ :=
  fun i j => coupling * M0 i j *
    PHI ^ (-(((weightVec k1 k2 k3 i : ℤ) : ℝ) + ((weightVec k1 k2 k3 j : ℤ) : ℝ)) / 2)

noncomputable def massMatrix (k1 k2 k3 : ℤ) (coupling : ℝ) : Matrix (Fin 3) (Fin 3) ℝ :=
  compute_physical_yukawa k1 k2 k3 coupling * (compute_physical_yukawa k1 k2 k3 coupling)ᵀ

lemma conjTranspose_eq_transpose (A : Matrix (Fin 3) (Fin 3) ℝ) : Aᴴ = Aᵀ := by
  ext i j
  simp [Matrix.conjTranspose_apply]

lemma massMatrix_hermitian (k1 k2 k3 : ℤ) (coupling : ℝ) :
    (massMatrix k1 k2 k3 coupling).IsHermitian := by
  rw [massMatrix, ← conjTranspose_eq_transpose]
  exact Matrix.isHermitian_mul_conjTranspose_self _

/-- `masses = np.sqrt(np.abs(eigenvalues))`, before sorting. -/
noncomputable def massValues (k1 k2 k3 : ℤ) (coupling : ℝ) : Fin 3 → ℝ :=
  fun i => Real.sqrt |(massMatrix_hermitian k1 k2 k3 coupling).eigenvalues i|

/-- `get_mass_hierarchy`: mass values sorted in descending order. -/
noncomputable def get_mass_hierarchy (k1 k2 k3 : ℤ) (coupling : ℝ) : Fin 3 → ℝ :=
  fun i => massValues k1 k2 k3 coupling
    (sortPerm3 (massValues k1 k2 k3 coupling) i)

/-- C10: for every integer weight 3-tuple and every real coupling (including
zero and negative values), `get_mass_hierarchy` returns exactly three values,
all non-negative and sorted in non-increasing order. -/
theorem C10_mass_hierarchy_invariants (k1 k2 k3 : ℤ) (coupling : ℝ) :
    (∀ i : Fin 3, 0 ≤ get_mass_hierarchy k1 k2 k3 coupling i) ∧
    (∀ i j : Fin 3, i ≤ j →
      get_mass_hierarchy k1 k2 k3 coupling j ≤ get_mass_hierarchy k1 k2 k3 coupling i) := by
  constructor
  · intro i
    exact Real.sqrt_nonneg _
  · intro i j hij
    exact sortPerm3_sorted (massValues k1 k2 k3 coupling) i j hij

/-- Witness for C10 at weights (0,0,0), coupling 0, indices 0 ≤ 1. -/
theorem C10_mass_hierarchy_invariants_witness :
    0 ≤ get_mass_hierarchy 0 0 0 0 0 ∧
    get_mass_hierarchy 0 0 0 0 1 ≤ get_mass_hierarchy 0 0 0 0 0 :=
  ⟨(C10_mass_hierarchy_invariants 0 0 0 0).1 0,
   (C10_mass_hierarchy_invariants 0 0 0 0).2 0 1 (by decide)⟩

/-- The filtered mass list `masses[masses > 1e-15]` of `compute_hierarchy_span`. -/
noncomputable def filteredMasses (k1 k2 k3 : ℤ) : List ℝ :=
  (List.ofFn (get_mass_hierarchy k1 k2 k3 1)).filter
    (fun x => decide ((1e-15 : ℝ) < x))

/-- `compute_hierarchy_span` (`model.py` lines 263-284), with `coupling = 1`:
`log10(masses[0]/masses[-1])` over the filtered sorted masses, or 0 when
fewer than two remain. -/
noncomputable def compute_hierarchy_span (k1 k2 k3 : ℤ) : ℝ :=
  if (filteredMasses k1 k2 k3).length < 2 then 0
  else Real.logb 10 ((filteredMasses k1 k2 k3).headI / (filteredMasses k1 k2 k3).getLastD 0)

/-! ### Exact Q35 form of the (6,4,0) physical Yukawa matrix -/

def uq : Q35 := ⟨-1/2, 0, 1/2, 0⟩

def u2 : Q35 := uq * uq

def u3 : Q35 := u2 * uq

def u4 : Q35 := u3 * uq

def u5 : Q35 := u4 * uq

def u6 : Q35 := u5 * uq

lemma uq_toReal : uq.toReal = PHI_INV := by
  rw [PHI_INV_eq]
  simp only [uq, Q35.toReal]
  push_cast
  ring

lemma u2_toReal : u2.toReal = PHI_INV ^ 2 := by
  rw [u2, Q35.toReal_mul, uq_toReal]; ring

lemma u3_toReal : u3.toReal = PHI_INV ^ 3 := by
  rw [u3, Q35.toReal_mul, u2_toReal, uq_toReal]; ring

lemma u4_toReal : u4.toReal = PHI_INV ^ 4 := by
  rw [u4, Q35.toReal_mul, u3_toReal, uq_toReal]; ring

lemma u5_toReal : u5.toReal = PHI_INV ^ 5 := by
  rw [u5, Q35.toReal_mul, u4_toReal, uq_toReal]; ring

lemma u6_toReal : u6.toReal = PHI_INV ^ 6 := by
  rw [u6, Q35.toReal_mul, u5_toReal, uq_toReal]; ring

lemma rpow_neg_natCast (n : ℕ) : PHI ^ (-(n : ℝ)) = PHI_INV ^ n := by
  rw [show (-(n : ℝ)) = ((-(n : ℤ) : ℤ) : ℝ) by push_cast; ring]
  rw [Real.rpow_intCast, zpow_neg, zpow_natCast]
  unfold PHI_INV
  rw [one_div, inv_pow]

def Yq : Matrix (Fin 3) (Fin 3) Q35 :=
  !![u6 * q00, u5 * q01, u3 * q02;
     u5 * q01, u4 * q11, u2 * q12;
     u3 * q02, u2 * q12, q22]

lemma Yq_00 : Yq 0 0 = u6 * q00 := rfl

lemma Yq_01 : Yq 0 1 = u5 * q01 := rfl

lemma Yq_02 : Yq 0 2 = u3 * q02 := rfl

lemma Yq_10 : Yq 1 0 = u5 * q01 := rfl

lemma Yq_11 : Yq 1 1 = u4 * q11 := rfl

lemma Yq_12 : Yq 1 2 = u2 * q12 := rfl

lemma Yq_20 : Yq 2 0 = u3 * q02 := rfl

lemma Yq_21 : Yq 2 1 = u2 * q12 := rfl

lemma Yq_22 : Yq 2 2 = q22 := rfl

lemma Y640_entry (i j : Fin 3) :
    compute_physical_yukawa 6 4 0 1 i j = (Yq i j).toReal := by
  fin_cases i <;> fin_cases j
  · show 1 * M0 0 0 * PHI ^ (-(((6 : ℤ) : ℝ) + ((6 : ℤ) : ℝ)) / 2) = (u6 * q00).toReal
    rw [show (-(((6 : ℤ) : ℝ) + ((6 : ℤ) : ℝ)) / 2) = -((6 : ℕ) : ℝ) by push_cast; ring]
    rw [rpow_neg_natCast, Q35.toReal_mul, u6_toReal, M0_entry 0 0, M0q_00]
    ring
  · show 1 * M0 0 1 * PHI ^ (-(((6 : ℤ) : ℝ) + ((4 : ℤ) : ℝ)) / 2) = (u5 * q01).toReal
    rw [show (-(((6 : ℤ) : ℝ) + ((4 : ℤ) : ℝ)) / 2) = -((5 : ℕ) : ℝ) by push_cast; ring]
    rw [rpow_neg_natCast, Q35.toReal_mul, u5_toReal, M0_entry 0 1, M0q_01]
    ring
  · show 1 * M0 0 2 * PHI ^ (-(((6 : ℤ) : ℝ) + ((0 : ℤ) : ℝ)) / 2) = (u3 * q02).toReal
    rw [show (-(((6 : ℤ) : ℝ) + ((0 : ℤ) : ℝ)) / 2) = -((3 : ℕ) : ℝ) by push_cast; ring]
    rw [rpow_neg_natCast, Q35.toReal_mul, u3_toReal, M0_entry 0 2, M0q_02]
    ring
  · show 1 * M0 1 0 * PHI ^ (-(((4 : ℤ) : ℝ) + ((6 : ℤ) : ℝ)) / 2) = (u5 * q01).toReal
    rw [show (-(((4 : ℤ) : ℝ) + ((6 : ℤ) : ℝ)) / 2) = -((5 : ℕ) : ℝ) by push_cast; ring]
    rw [rpow_neg_natCast, Q35.toReal_mul, u5_toReal, M0_entry 1 0, M0q_10]
    ring
  · show 1 * M0 1 1 * PHI ^ (-(((4 : ℤ) : ℝ) + ((4 : ℤ) : ℝ)) / 2) = (u4 * q11).toReal
    rw [show (-(((4 : ℤ) : ℝ) + ((4 : ℤ) : ℝ)) / 2) = -((4 : ℕ) : ℝ) by push_cast; ring]
    rw [rpow_neg_natCast, Q35.toReal_mul, u4_toReal, M0_entry 1 1, M0q_11]
    ring
  · show 1 * M0 1 2 * PHI ^ (-(((4 : ℤ) : ℝ) + ((0 : ℤ) : ℝ)) / 2) = (u2 * q12).toReal
    rw [show (-(((4 : ℤ) : ℝ) + ((0 : ℤ) : ℝ)) / 2) = -((2 : ℕ) : ℝ) by push_cast; ring]
    rw [rpow_neg_natCast, Q35.toReal_mul, u2_toReal, M0_entry 1 2, M0q_12]
    ring
  · show 1 * M0 2 0 * PHI ^ (-(((0 : ℤ) : ℝ) + ((6 : ℤ) : ℝ)) / 2) = (u3 * q02).toReal
    rw [show (-(((0 : ℤ) : ℝ) + ((6 : ℤ) : ℝ)) / 2) = -((3 : ℕ) : ℝ) by push_cast; ring]
    rw [rpow_neg_natCast, Q35.toReal_mul, u3_toReal, M0_entry 2 0, M0q_20]
    ring
  · show 1 * M0 2 1 * PHI ^ (-(((0 : ℤ) : ℝ) + ((4 : ℤ) : ℝ)) / 2) = (u2 * q12).toReal
    rw [show (-(((0 : ℤ) : ℝ) + ((4 : ℤ) : ℝ)) / 2) = -((2 : ℕ) : ℝ) by push_cast; ring]
    rw [rpow_neg_natCast, Q35.toReal_mul, u2_toReal, M0_entry 2 1, M0q_21]
    ring
  · show 1 * M0 2 2 * PHI ^ (-(((0 : ℤ) : ℝ) + ((0 : ℤ) : ℝ)) / 2) = (q22).toReal
    rw [show (-(((0 : ℤ) : ℝ) + ((0 : ℤ) : ℝ)) / 2) = -((0 : ℕ) : ℝ) by push_cast; ring]
    rw [rpow_neg_natCast, M0_entry 2 2, M0q_22]
    ring

/-- Determinant of the (6,4,0) physical Yukawa matrix, exactly
(laid out as in `Matrix.det_fin_three`). -/
def detYq : Q35 :=
  (u6 * q00) * (u4 * q11) * q22 - (u6 * q00) * (u2 * q12) * (u2 * q12) -
    (u5 * q01) * (u5 * q01) * q22 + (u5 * q01) * (u2 * q12) * (u3 * q02) +
    (u3 * q02) * (u5 * q01) * (u2 * q12) - (u3 * q02) * (u4 * q11) * (u3 * q02)

/-- Trace of the (6,4,0) mass matrix `Y Yᵀ`, exactly: the sum of the squares
of the entries of Y. -/
def trYq : Q35 :=
  ((u6 * q00) * (u6 * q00) + (u5 * q01) * (u5 * q01) + (u3 * q02) * (u3 * q02)) +
    ((u5 * q01) * (u5 * q01) + (u4 * q11) * (u4 * q11) + (u2 * q12) * (u2 * q12)) +
    ((u3 * q02) * (u3 * q02) + (u2 * q12) * (u2 * q12) + q22 * q22)

lemma detY640_eq : (compute_physical_yukawa 6 4 0 1).det = detYq.toReal := by
  rw [Matrix.det_fin_three]
  simp only [Y640_entry, Yq_00, Yq_01, Yq_02, Yq_10, Yq_11, Yq_12, Yq_20, Yq_21, Yq_22]
  simp only [← Q35.toReal_mul, ← Q35.toReal_sub, ← Q35.toReal_add]
  rfl

lemma traceB640_eq : (massMatrix 6 4 0 1).trace = trYq.toReal := by
  rw [massMatrix, Matrix.trace_fin_three]
  simp only [Matrix.mul_apply, Matrix.transpose_apply, Fin.sum_univ_three]
  simp only [Y640_entry, Yq_00, Yq_01, Yq_02, Yq_10, Yq_11, Yq_12, Yq_20, Yq_21, Yq_22]
  simp only [← Q35.toReal_mul, ← Q35.toReal_add]
  rfl

lemma detB640_eq : (massMatrix 6 4 0 1).det = detYq.toReal ^ 2 := by
  rw [massMatrix, Matrix.det_mul, Matrix.det_transpose, detY640_eq]
  ring

/-! ### Eigenvalue bookkeeping for the (6,4,0) mass matrix -/

lemma detYq_eq : detYq = ⟨0, 7417/9, 0, -3317/9⟩ := by
  norm_num [detYq, u6, u5, u4, u3, u2, uq, q00, q01, q02, q11, q12, q22,
    Q35.mul_def, Q35.add_def, Q35.sub_def, Q35.neg_def]

lemma trYq_eq : trYq = ⟨1309/3, 0, -195, 0⟩ := by
  norm_num [trYq, u6, u5, u4, u3, u2, uq, q00, q01, q02, q11, q12, q22,
    Q35.mul_def, Q35.add_def, Q35.sub_def, Q35.neg_def]

lemma detY_bounds : -0.007240 < detYq.toReal ∧ detYq.toReal < -0.007120 := by
  rw [detYq_eq]
  simp only [Q35.toReal]
  push_cast
  constructor <;> nlinarith [s3_gt, s3_lt, s15_gt, s15_lt]

lemma trY_bounds : (0.3000 : ℝ) < trYq.toReal ∧ trYq.toReal < 0.3001 := by
  rw [trYq_eq]
  simp only [Q35.toReal]
  push_cast
  constructor <;> nlinarith [s5_gt, s5_lt]

lemma massMatrix_posSemidef (k1 k2 k3 : ℤ) (coupling : ℝ) :
    (massMatrix k1 k2 k3 coupling).PosSemidef := by
  rw [massMatrix, ← conjTranspose_eq_transpose]
  exact Matrix.posSemidef_self_mul_conjTranspose _

lemma sum_eigenvalues_eq_trace {A : Matrix (Fin 3) (Fin 3) ℝ} (hA : A.IsHermitian) :
    hA.eigenvalues 0 + hA.eigenvalues 1 + hA.eigenvalues 2 = A.trace := by
  have h := hA.spectral_theorem
  have hU : star (hA.eigenvectorUnitary : Matrix (Fin 3) (Fin 3) ℝ) *
      (hA.eigenvectorUnitary : Matrix (Fin 3) (Fin 3) ℝ) = 1 :=
    Matrix.mem_unitaryGroup_iff'.mp (hA.eigenvectorUnitary).2
  have htr : A.trace =
      (Matrix.diagonal (RCLike.ofReal ∘ hA.eigenvalues) : Matrix (Fin 3) (Fin 3) ℝ).trace := by
    conv_lhs => rw [h]
    rw [Matrix.trace_mul_cycle, hU, one_mul]
  rw [htr, Matrix.trace_diagonal]
  rw [RCLike.ofReal_real_eq_id]
  simp [Fin.sum_univ_three]

lemma prod_eigenvalues_eq_det {A : Matrix (Fin 3) (Fin 3) ℝ} (hA : A.IsHermitian) :
    hA.eigenvalues 0 * hA.eigenvalues 1 * hA.eigenvalues 2 = A.det := by
  rw [hA.det_eq_prod_eigenvalues]
  simp only [RCLike.ofReal_real_eq_id, id_eq, Fin.prod_univ_three]

lemma sortPerm3_surj (v : Fin 3 → ℝ) (i : Fin 3) : ∃ j, sortPerm3 v j = i := by
  unfold sortPerm3
  split_ifs <;> fin_cases i <;>
    first
      | exact ⟨0, rfl⟩
      | exact ⟨1, rfl⟩
      | exact ⟨2, rfl⟩

/-- C6: `compute_hierarchy_span` on the weight tuple (6,4,0) is a fixed
strictly positive real number - it is a pure function of the hard-coded
constants, and its value is greater than 0. -/
theorem C6_hierarchy_span_positive : 0 < compute_hierarchy_span 6 4 0 := by
  have hB : (massMatrix 6 4 0 1).IsHermitian := massMatrix_hermitian 6 4 0 1
  set ν : Fin 3 → ℝ := (massMatrix_hermitian 6 4 0 1).eigenvalues with hν
  have hnn : ∀ i, 0 ≤ ν i := fun i => (massMatrix_posSemidef 6 4 0 1).eigenvalues_nonneg i
  have hsum : ν 0 + ν 1 + ν 2 = trYq.toReal :=
    (sum_eigenvalues_eq_trace (massMatrix_hermitian 6 4 0 1)).trans traceB640_eq
  have hprod : ν 0 * ν 1 * ν 2 = detYq.toReal ^ 2 :=
    (prod_eigenvalues_eq_det (massMatrix_hermitian 6 4 0 1)).trans detB640_eq
  have hT := trY_bounds
  have hDet := detY_bounds
  have hD_lo : (5.0e-5 : ℝ) < detYq.toReal ^ 2 := by
    nlinarith [hDet.2, sq_nonneg (detYq.toReal + 0.007120)]
  have hD_hi : detYq.toReal ^ 2 < 5.3e-5 := by
    nlinarith [hDet.1, hDet.2]
  have hν_le : ∀ i, ν i ≤ trYq.toReal := by
    intro i
    fin_cases i
    · show ν 0 ≤ trYq.toReal
      linarith [hnn 1, hnn 2]
    · show ν 1 ≤ trYq.toReal
      linarith [hnn 0, hnn 2]
    · show ν 2 ≤ trYq.toReal
      linarith [hnn 0, hnn 1]
  have hν_lo : ∀ i, (5.0e-4 : ℝ) < ν i := by
    intro i
    by_contra hcon
    push_neg at hcon
    have h01 : ν 0 * ν 1 ≤ trYq.toReal * trYq.toReal :=
      mul_le_mul (hν_le 0) (hν_le 1) (hnn 1) (le_trans (hnn 0) (hν_le 0))
    have h12 : ν 1 * ν 2 ≤ trYq.toReal * trYq.toReal :=
      mul_le_mul (hν_le 1) (hν_le 2) (hnn 2) (le_trans (hnn 0) (hν_le 0))
    have h02 : ν 0 * ν 2 ≤ trYq.toReal * trYq.toReal :=
      mul_le_mul (hν_le 0) (hν_le 2) (hnn 2) (le_trans (hnn 0) (hν_le 0))
    fin_cases i
    · have hcon' : ν 0 ≤ 5.0e-4 := hcon
      nlinarith [hnn 1, hnn 2, h12, hT.2, mul_nonneg (hnn 1) (hnn 2)]
    · have hcon' : ν 1 ≤ 5.0e-4 := hcon
      nlinarith [hnn 0, hnn 2, h02, hT.2, mul_nonneg (hnn 0) (hnn 2)]
    · have hcon' : ν 2 ≤ 5.0e-4 := hcon
      nlinarith [hnn 0, hnn 1, h01, hT.2, mul_nonneg (hnn 0) (hnn 1)]
  have hm_eq : ∀ i, massValues 6 4 0 1 i = Real.sqrt (ν i) := by
    intro i
    unfold massValues
    rw [abs_of_nonneg (hnn i)]
  have hm_pos : ∀ i, (1e-15 : ℝ) < massValues 6 4 0 1 i := by
    intro i
    rw [hm_eq i, show (1e-15 : ℝ) = |1e-15| by rw [abs_of_pos]; norm_num,
      ← Real.sqrt_sq_eq_abs]
    apply Real.sqrt_lt_sqrt (by positivity)
    nlinarith [hν_lo i]
  have hg_pos : ∀ i, (1e-15 : ℝ) < get_mass_hierarchy 6 4 0 1 i := fun i => hm_pos _
  have hofn : List.ofFn (get_mass_hierarchy 6 4 0 1) =
      [get_mass_hierarchy 6 4 0 1 0, get_mass_hierarchy 6 4 0 1 1,
        get_mass_hierarchy 6 4 0 1 2] := by
    simp [List.ofFn_succ]
  have hfil : filteredMasses 6 4 0 =
      [get_mass_hierarchy 6 4 0 1 0, get_mass_hierarchy 6 4 0 1 1,
        get_mass_hierarchy 6 4 0 1 2] := by
    rw [filteredMasses, hofn]
    simp [List.filter, decide_eq_true_eq, hg_pos 0, hg_pos 1, hg_pos 2]
  have hsorted := sortPerm3_sorted (massValues 6 4 0 1)
  have hg20 : get_mass_hierarchy 6 4 0 1 2 < get_mass_hierarchy 6 4 0 1 0 := by
    rcases lt_or_eq_of_le (hsorted 0 2 (by decide)) with h | h
    · exact h
    · exfalso
      have hall : ∀ i, massValues 6 4 0 1 i = get_mass_hierarchy 6 4 0 1 0 := by
        intro i
        obtain ⟨j, hj⟩ := sortPerm3_surj (massValues 6 4 0 1) i
        have hmi : massValues 6 4 0 1 i = get_mass_hierarchy 6 4 0 1 j := by
          rw [← hj]; rfl
        rw [hmi]
        have h1 : get_mass_hierarchy 6 4 0 1 1 ≤ get_mass_hierarchy 6 4 0 1 0 :=
          hsorted 0 1 (by decide)
        have h2 : get_mass_hierarchy 6 4 0 1 2 ≤ get_mass_hierarchy 6 4 0 1 1 :=
          hsorted 1 2 (by decide)
        have h0 : get_mass_hierarchy 6 4 0 1 2 = get_mass_hierarchy 6 4 0 1 0 := h
        fin_cases j
        · rfl
        · show get_mass_hierarchy 6 4 0 1 1 = get_mass_hierarchy 6 4 0 1 0
          linarith
        · show get_mass_hierarchy 6 4 0 1 2 = get_mass_hierarchy 6 4 0 1 0
          linarith
      have hν_eq : ∀ i, ν i = (get_mass_hierarchy 6 4 0 1 0) ^ 2 := by
        intro i
        rw [← hall i, hm_eq i, Real.sq_sqrt (hnn i)]
      have hTg : trYq.toReal = 3 * (get_mass_hierarchy 6 4 0 1 0) ^ 2 := by
        rw [← hsum, hν_eq 0, hν_eq 1, hν_eq 2]; ring
      have hDg : detYq.toReal ^ 2 = ((get_mass_hierarchy 6 4 0 1 0) ^ 2) ^ 3 := by
        rw [← hprod, hν_eq 0, hν_eq 1, hν_eq 2]; ring
      have hcube : trYq.toReal ^ 3 = 27 * detYq.toReal ^ 2 := by
        rw [hTg, hDg]; ring
      have hsq : (0.09 : ℝ) < trYq.toReal ^ 2 := by nlinarith [hT.1]
      have hcb : (0.027 : ℝ) < trYq.toReal ^ 3 := by nlinarith [hT.1, hsq]
      linarith [hD_hi]
  rw [compute_hierarchy_span, hfil]
  norm_num
  apply Real.logb_pos (by norm_num)
  rw [lt_div_iff₀ (lt_trans (by norm_num) (hg_pos 2))]
  linarith [hg20]

end GoldenFlavor
